import Mathlib

/-!
# Verification of the RSS Feed Field Mapper & Analyzer

A shallow embedding, in Lean 4, of `src/data/RSSFieldAnalyzer.ts` from the
`changelog` repository, together with theorems settling the specification
claims about it.

Modelling conventions:
* JavaScript numbers used for reliability percentages and average lengths are
  embedded as rationals (`ℚ`); the reliability arithmetic of the analyzer is
  exact on rationals.
* A JavaScript record (`Record<string, number>` etc.) is embedded as a function
  into `Option`, `none` standing for an absent key (`undefined`).
* Item field collections (`Record<string, any>` with insertion order) are
  embedded as association lists `List (String × FieldValue)` with unique keys.
* DOM access (`querySelector`, attributes, text content) is embedded by
  structures recording the query results the analyzer actually reads.
* Fallible code is embedded with `Except`; a thrown exception is an `.error`.
-/

namespace RSSAnalyzer

/-- A field value discovered on one item, as stored in the `fields` record of
`extractAllFields`: `null` (from `getAttribute` misses), a plain string, the
structured enclosure/media records, a captured attribute record, or the
`extracted_images` array. -/
inductive FieldValue where
  | null
  | str (s : String)
  | enclosure (url tAttr length : Option String)
  | media (url medium width height tAttr : Option String)
  | attrsRec (attrs : List (String × String))
  | images (srcs : List (String × Option String))
  deriving Repr, DecidableEq

/-- JavaScript truthiness of a stored field value: `null` and the empty string
are falsy, every object (enclosure/media/attribute records, arrays) is truthy. -/
def FieldValue.truthy : FieldValue → Bool
  | .null => false
  | .str s => !(s = "")
  | _ => true

/-- The `type` attribute of a structured value (`sample?.type` in
`findImageMapping`); `none` for values without one. -/
def FieldValue.typeAttr : FieldValue → Option String
  | .enclosure _ t _ => t
  | .media _ _ _ _ t => t
  | _ => none

/-- The fields extracted from one item/entry: an insertion-ordered association
list, the embedding of the `fields` object built by `extractAllFields`. -/
def ItemFields := List (String × FieldValue)

instance : DecidableEq ItemFields := by
  unfold ItemFields
  infer_instance

/-- `fields[k]` — first binding of key `k` (JavaScript object keys are unique,
so the first binding is the binding). -/
def getField (fl : ItemFields) (k : String) : Option FieldValue :=
  match fl with
  | [] => none
  | (k', v) :: rest => if k' = k then some v else getField rest k

/-- `fields[k] = v` — update the existing binding in place, or append a new
binding, exactly as JavaScript object assignment keeps insertion order. -/
def setField (fl : ItemFields) (k : String) (v : FieldValue) : ItemFields :=
  match fl with
  | [] => [(k, v)]
  | (k', v') :: rest => if k' = k then (k', v) :: rest else (k', v') :: setField rest k v

/-- Value of a reliability record at a field, with `undefined` read as `0`
(the `fieldReliability[value] || 0` idiom of the source). -/
def relV (rel : String → Option ℚ) (f : String) : ℚ :=
  (rel f).getD 0

/-- The JavaScript comparison `reliability[field] >= threshold`: an absent
field (`undefined`) never meets the threshold. -/
def relMeets (rel : String → Option ℚ) (t : ℚ) (f : String) : Bool :=
  match rel f with
  | some r => decide (t ≤ r)
  | none => false

/-- The JavaScript comparison `reliability[field] > bound` used by
`findImageMapping` and the validator: false on an absent field. -/
def relGT (rel : String → Option ℚ) (t : ℚ) (f : String) : Bool :=
  match rel f with
  | some r => decide (t < r)
  | none => false

/-- First loop of `findBestField` (lines 488–492): the first candidate whose
reliability meets the threshold. -/
def findFirstMeeting (rel : String → Option ℚ) (t : ℚ) : List String → Option String
  | [] => none
  | f :: rest =>
    match rel f with
    | some r => if t ≤ r then some f else findFirstMeeting rel t rest
    | none => findFirstMeeting rel t rest

/-- Second loop of `findBestField` (lines 494–501): scan for the strictly
highest reliability, starting from `best = null`, `bestScore = 0`; a candidate
replaces the running best only when strictly greater (`>`), so ties keep the
earlier candidate. -/
def findBestLoop (rel : String → Option ℚ) : List String → Option String → ℚ → Option String × ℚ
  | [], best, bestScore => (best, bestScore)
  | f :: rest, best, bestScore =>
    match rel f with
    | some r => if bestScore < r then findBestLoop rel rest (some f) r
                else findBestLoop rel rest best bestScore
    | none => findBestLoop rel rest best bestScore

/-- `findBestField(candidates, reliability, threshold)` (lines 483–503): first
candidate meeting the threshold, else the strictly most reliable candidate
(`null` when every candidate scores zero or is absent). -/
def findBestField (candidates : List String) (rel : String → Option ℚ) (t : ℚ) : Option String :=
  match findFirstMeeting rel t candidates with
  | some f => some f
  | none => (findBestLoop rel candidates none 0).1

/-- A candidate image source pushed by `findImageMapping`. -/
structure ImageCandidate where
  source : String
  ctype : String
  reliability : ℚ
  deriving Repr, DecidableEq

/-- `s.startsWith(p)` on strings, computed on the underlying character
lists. -/
def strStartsWith (s p : String) : Bool :=
  p.data.isPrefixOf s.data

/-- `sample?.type?.startsWith("image")` on the first representative sample of
`enclosure` (line 530). -/
def sampleTypeIsImage (s : Option FieldValue) : Bool :=
  match s with
  | some v =>
    match v.typeAttr with
    | some t => strStartsWith t "image"
    | none => false
  | none => false

/-- The candidate list built by `findImageMapping` (lines 510–555), in push
order: media_content (>50), media_thumbnail (>50), enclosure (>50 with an
image-typed first sample), extracted_images (>30), itunes_image (>50). -/
def imageFieldCandidates (rel : String → Option ℚ) (samples : String → List FieldValue) :
    List ImageCandidate :=
  (if relGT rel 50 "media_content" then
    [{ source := "media_content", ctype := "media", reliability := relV rel "media_content" }]
   else []) ++
  (if relGT rel 50 "media_thumbnail" then
    [{ source := "media_thumbnail", ctype := "media", reliability := relV rel "media_thumbnail" }]
   else []) ++
  (if relGT rel 50 "enclosure" && sampleTypeIsImage ((samples "enclosure").head?) then
    [{ source := "enclosure", ctype := "enclosure", reliability := relV rel "enclosure" }]
   else []) ++
  (if relGT rel 30 "extracted_images" then
    [{ source := "extracted_images", ctype := "html_extraction", reliability := relV rel "extracted_images" }]
   else []) ++
  (if relGT rel 50 "itunes_image" then
    [{ source := "itunes_image", ctype := "itunes", reliability := relV rel "itunes_image" }]
   else [])

/-- Stable insertion into a reliability-descending list: the inserted element
goes before the first strictly less reliable element, matching the stable
`Array.prototype.sort` with comparator `(a, b) => b.reliability - a.reliability`. -/
def insertByRel (a : ImageCandidate) : List ImageCandidate → List ImageCandidate
  | [] => [a]
  | b :: rest => if b.reliability ≤ a.reliability then a :: b :: rest else b :: insertByRel a rest

/-- Stable sort by reliability descending (line 558). -/
def sortByRelDesc (l : List ImageCandidate) : List ImageCandidate :=
  l.foldr insertByRel []

/-- `findImageMapping` (lines 506–560): sort the qualifying candidates by
reliability descending and return the top one (`null` when none qualify). -/
def findImageMapping (rel : String → Option ℚ) (samples : String → List FieldValue) :
    Option ImageCandidate :=
  (sortByRelDesc (imageFieldCandidates rel samples)).head?

/-- The document-level query results `detectFeedType` and
`analyzeFeedStructure` read from the parsed DOM. `parseFail` records the
`parsererror` element text when parsing failed; the item/entry node lists hold
the per-item extraction inputs. -/
structure ParsedDoc where
  parseFail : Option String
  rssRoot : Bool
  rssVersion : Option String
  feedRoot : Bool
  rdfRoot : Bool
  atomMeta : List (String × Option String)
  rssMeta : List (String × Option String)
  entryNodes : List (List (String × FieldValue) × List (String × FieldValue))
  itemNodes : List (List (String × FieldValue) × List (String × FieldValue))
  namespaces : List String
  characterSet : Option String

/-- The `version || "2.0"` default of `detectFeedType`: a missing or empty
version attribute falls back to `"2.0"`. -/
def versionOrDefault (v : Option String) : String :=
  match v with
  | some s => if s = "" then "2.0" else s
  | none => "2.0"

/-- `detectFeedType` (lines 167–177): an `rss` root (with its version
attribute) beats a `feed` root (atom) beats an RDF root (rss1.0); anything
else is `"unknown"`. -/
def detectFeedType (d : ParsedDoc) : String :=
  if d.rssRoot then "rss" ++ versionOrDefault d.rssVersion
  else if d.feedRoot then "atom"
  else if d.rdfRoot then "rss1.0"
  else "unknown"

/-- The running aggregate per field built by `analyzeFieldPattern`
(lines 353–396). `types` and `formats` model the JavaScript `Set`s as
insertion-ordered duplicate-free lists. -/
structure FieldPattern where
  types : List String
  formats : List String
  hasHTML : Bool
  hasURL : Bool
  hasDate : Bool
  avgLength : ℚ
  samples : Nat
  deriving Repr, DecidableEq

/-- The fresh pattern created on a first observation (lines 355–363). -/
def emptyPattern : FieldPattern :=
  { types := [], formats := [], hasHTML := false, hasURL := false, hasDate := false,
    avgLength := 0, samples := 0 }

/-- `Set.add`: append unless already present. -/
def addToSet (l : List String) (x : String) : List String :=
  if x ∈ l then l else l ++ [x]

/-- The regex test `/<[^>]+>/.test(value)`: scan for a `<`, at least one
character other than `>`, then a `>`. The scanner state is `some n` inside a
candidate tag with `n` body characters seen so far, `none` outside. -/
def htmlTagScan : List Char → Option Nat → Bool
  | [], _ => false
  | c :: rest, none => htmlTagScan rest (if c = '<' then some 0 else none)
  | c :: rest, some n =>
    if c = '>' then (if 0 < n then true else htmlTagScan rest none)
    else htmlTagScan rest (some (n + 1))

/-- `/<[^>]+>/.test(value)` on a string (line 370). -/
def hasHTMLmarkup (s : String) : Bool :=
  htmlTagScan s.data none

/-- `/https?:\/\/[^\s]+/.test(value)` (line 376): an occurrence of
`http://` or `https://` followed by at least one non-whitespace character. -/
def urlScan : List Char → Bool
  | [] => false
  | c :: rest =>
    (("http://".data.isPrefixOf (c :: rest) && nonSpaceAt ((c :: rest).drop 7))
      || ("https://".data.isPrefixOf (c :: rest) && nonSpaceAt ((c :: rest).drop 8)))
      || urlScan rest
where
  nonSpaceAt : List Char → Bool
    | [] => false
    | c :: _ => !c.isWhitespace

/-- URL detection on a string. -/
def hasURLpattern (s : String) : Bool :=
  urlScan s.data

/-- `isValidDate` (lines 399–402) calls the host's `new Date(str)` parser,
whose accepted formats beyond ISO 8601 are implementation-defined
(ECMA-262 §21.4.3.2). Modelled as recognising an ISO-style `YYYY-MM-DD`
lead; no theorem in this development depends on the exact date grammar. -/
def isValidDate (s : String) : Bool :=
  match s.data with
  | y1 :: y2 :: y3 :: y4 :: '-' :: m1 :: m2 :: '-' :: d1 :: d2 :: _ =>
    y1.isDigit && y2.isDigit && y3.isDigit && y4.isDigit
      && m1.isDigit && m2.isDigit && d1.isDigit && d2.isDigit
  | _ => false

/-- `analyzeFieldPattern(value, existingPattern)` (lines 353–396): for a
string value record the shape, the HTML/URL/date signals, and fold the value
length into the running average before bumping the sample count; for an
object value record the structured shape. In JavaScript `typeof null` is
`"object"`, so every non-string `FieldValue` takes the object branch. -/
def analyzeFieldPattern (value : FieldValue) (existingPattern : Option FieldPattern) :
    FieldPattern :=
  let p0 := existingPattern.getD emptyPattern
  match value with
  | .str s =>
    let p1 := { p0 with types := addToSet p0.types "string" }
    let p2 := if hasHTMLmarkup s then { p1 with hasHTML := true, formats := addToSet p1.formats "html" } else p1
    let p3 := if hasURLpattern s then { p2 with hasURL := true, formats := addToSet p2.formats "url" } else p2
    let p4 := if isValidDate s then { p3 with hasDate := true, formats := addToSet p3.formats "date" } else p3
    let p5 := { p4 with
      avgLength := (p4.avgLength * (p4.samples : ℚ) + (s.length : ℚ)) / ((p4.samples : ℚ) + 1) }
    { p5 with samples := p5.samples + 1 }
  | _ =>
    let p1 := { p0 with types := addToSet p0.types "object", formats := addToSet p0.formats "structured" }
    { p1 with samples := p1.samples + 1 }

/-- Fold a sequence of observed values through `analyzeFieldPattern`, starting
with no prior pattern, exactly as the sampling loop of `analyzeFeedStructure`
does for one field (line 134). -/
def observeValues (values : List FieldValue) : Option FieldPattern :=
  values.foldl (fun acc v => some (analyzeFieldPattern v acc)) none

/-- `fieldOccurrences[f]` after the sampling loop (line 122): each key
occurrence in each sampled item's key list adds one. -/
def fieldOccurrences (keyLists : List (List String)) (f : String) : Nat :=
  keyLists.foldl (fun n it => n + it.count f) 0

/-- `allFields` (line 119): the set of keys seen in any sampled item.
Order of the deduplication is not relied upon by any theorem. -/
def allFieldsList (keyLists : List (List String)) : List String :=
  keyLists.flatten.dedup

/-- `fieldReliability` (lines 146–149): for every field seen in some sampled
item, its occurrence count over the number of analyzed samples, times 100. -/
def fieldReliabilityOf (keyLists : List (List String)) (f : String) : Option ℚ :=
  if f ∈ allFieldsList keyLists then
    some (((fieldOccurrences keyLists f : ℕ) : ℚ) / (keyLists.length : ℚ) * 100)
  else none

/-- The query results of `item.querySelector("link")` that `extractAllFields`
reads: the `href`, `rel` and `type` attributes (`none` when `getAttribute`
returns `null`) and the element's text content. -/
structure LinkEl where
  href : Option String
  rel : Option String
  tAttr : Option String
  textContent : String
  deriving Repr, DecidableEq

/-- The link re-resolution step of `extractAllFields` (lines 240–246): when a
`link` element is found, `fields["link"]` becomes `href || textContent`
(JavaScript `||`, so a missing or empty `href` falls back to the text), and
`link_rel` / `link_type` are assigned from the `rel` / `type` attributes
(`null` when absent). -/
def resolveLink (fl : ItemFields) (linkEl : Option LinkEl) : ItemFields :=
  match linkEl with
  | none => fl
  | some le =>
    let linkVal : FieldValue :=
      match le.href with
      | some h => if h = "" then .str le.textContent else .str h
      | none => .str le.textContent
    let fl1 := setField fl "link" linkVal
    let fl2 := setField fl1 "link_rel" (match le.rel with | some r => .str r | none => .null)
    setField fl2 "link_type" (match le.tAttr with | some t => .str t | none => .null)

/-- One item/entry node as `extractAllFields` sees it. The DOM-independent
link re-resolution is verified separately through `resolveLink`; the DOM
queries of the standard, namespaced and image-extraction steps are abstracted
as the item's recorded base fields, and the deep-scan-only `auto_*` fields
(lines 288–309) as its deep fields. -/
def RawItem := List (String × FieldValue) × List (String × FieldValue)

/-- `extractAllFields(item, deepScan)` at the granularity of this model: the
base fields always, plus the deep-scan fields only when `deepScan` is set. -/
def extractItemFields (it : RawItem) (deepScan : Bool) : ItemFields :=
  it.1 ++ (if deepScan then it.2 else [])

/-- The first up to 3 truthy values of a field across the sampled items, in
sampling order (`fieldSamples`, lines 124–130). -/
def truthyValuesOf (sampled : List ItemFields) (f : String) : List FieldValue :=
  sampled.filterMap (fun fl =>
    match getField fl f with
    | some v => if v.truthy then some v else none
    | none => none)

/-- `fieldPatterns` after the sampling loop (lines 132–135): only under deep
scan, and per field the fold of its truthy values through
`analyzeFieldPattern`. Key order follows the deduplicated field list; no
theorem relies on the order. -/
def patternsOf (sampled : List ItemFields) : List (String × FieldPattern) :=
  (allFieldsList (sampled.map (fun fl => fl.map Prod.fst))).filterMap
    (fun f =>
      match observeValues (truthyValuesOf sampled f) with
      | some p => some (f, p)
      | none => none)

/-- `extractChannelInfo` (lines 180–207): atom metadata from the `feed`
element, otherwise `channel` metadata. The individual DOM queries are
abstracted as the recorded metadata lists. -/
def extractChannelInfo (d : ParsedDoc) (feedType : String) : List (String × Option String) :=
  if feedType = "atom" then d.atomMeta else d.rssMeta

/-- `doc.querySelectorAll(feedType === "atom" ? "entry" : "item")`
(line 102). -/
def docItems (d : ParsedDoc) : List RawItem :=
  if detectFeedType d = "atom" then d.entryNodes else d.itemNodes

/-- The `AnalysisResult` record returned by `analyzeFeedStructure`
(lines 151–163). -/
structure Analysis where
  feedType : String
  channelInfo : List (String × Option String)
  itemCount : Nat
  samplesAnalyzed : Nat
  uniqueFields : List String
  fieldReliability : String → Option ℚ
  fieldSamples : String → List FieldValue
  fieldPatterns : List (String × FieldPattern)
  items : List ItemFields
  namespaces : List String
  encoding : String

/-- `analyzeFeedStructure(xmlContent, sampleSize, deepScan)` (lines 85–164):
a parser error aborts with `Invalid XML: …`; otherwise detect the feed type,
sample `min(sampleSize, itemCount)` items, extract their fields and aggregate
occurrences, samples, patterns and reliability percentages. The encoding is
`doc.characterSet || "UTF-8"`. -/
def analyzeFeedStructure (d : ParsedDoc) (sampleSize : Nat) (deepScan : Bool) :
    Except String Analysis :=
  match d.parseFail with
  | some msg => .error ("Invalid XML: " ++ msg)
  | none =>
    let feedType := detectFeedType d
    let nodes := docItems d
    let itemCount := nodes.length
    let samplesToAnalyze := min sampleSize itemCount
    let sampled := (nodes.take samplesToAnalyze).map (fun it => extractItemFields it deepScan)
    let keyLists := sampled.map (fun fl => fl.map Prod.fst)
    .ok
      { feedType := feedType
        channelInfo := extractChannelInfo d feedType
        itemCount := itemCount
        samplesAnalyzed := samplesToAnalyze
        uniqueFields := allFieldsList keyLists
        fieldReliability := fieldReliabilityOf keyLists
        fieldSamples := fun f => (truthyValuesOf sampled f).take 3
        fieldPatterns := if deepScan then patternsOf sampled else []
        items := sampled
        namespaces := d.namespaces
        encoding := match d.characterSet with
          | some c => if c = "" then "UTF-8" else c
          | none => "UTF-8" }

/-- An entry of the validator's `issues` / `warnings` / `suggestions` arrays.
`reliability` is carried only by the required-field issues (line 593). -/
structure Issue where
  level : String
  message : String
  field : String
  reliability : Option ℚ
  deriving Repr, DecidableEq

/-- `calculateQualityScore(issues, warnings)` (lines 650–655): start at 100,
subtract 20 per issue and 5 per warning, then clamp into [0, 100]. -/
def calculateQualityScore (issues warnings : List Issue) : Int :=
  max 0 (min 100 (100 - (issues.length : Int) * 20 - (warnings.length : Int) * 5))

/-- The `!fieldReliability[field] || fieldReliability[field] < 50` test of the
required-field check (line 588): absent, zero (falsy) or below 50. -/
def isFalsyOrLt50 (r : Option ℚ) : Bool :=
  match r with
  | none => true
  | some x => decide (x = 0) || decide (x < 50)

/-- Issue pushed for a feed without items (lines 571–576). -/
def itemIssues (itemCount : Nat) : List Issue :=
  if itemCount = 0 then
    [{ level := "error", message := "Feed contains no items", field := "items", reliability := none }]
  else []

/-- Warning pushed for a small feed (lines 577–583); the else-if means a
zero-item feed gets the issue, not this warning. -/
def itemWarnings (itemCount : Nat) : List Issue :=
  if itemCount = 0 then []
  else if itemCount < 5 then
    [{ level := "warning", message := "Feed only contains " ++ toString itemCount ++ " items",
       field := "items", reliability := none }]
  else []

/-- Issues for missing or unreliable required fields (lines 586–596), in the
fixed order title, link, description; each carries `reliability || 0`. -/
def requiredFieldIssues (rel : String → Option ℚ) : List Issue :=
  ["title", "link", "description"].filterMap (fun f =>
    if isFalsyOrLt50 (rel f) then
      some { level := "error", message := "Missing or unreliable field: " ++ f, field := f,
             reliability := some (relV rel f) }
    else none)

/-- Warning when no date-family field has reliability above 70
(lines 599–607). -/
def dateWarnings (rel : String → Option ℚ) : List Issue :=
  if ["pubDate", "published", "updated", "dc_date"].any (relGT rel 70) then []
  else [{ level := "warning", message := "No reliable date field found", field := "date",
          reliability := none }]

/-- Suggestion when no image-family field has reliability above 30
(lines 610–618). -/
def imageSuggestions (rel : String → Option ℚ) : List Issue :=
  if ["media_content", "media_thumbnail", "enclosure", "extracted_images"].any (relGT rel 30) then []
  else [{ level := "info", message := "No image sources found in feed", field := "image",
          reliability := none }]

/-- Warnings for a title pattern flagged as containing HTML (lines 621–629);
only entries of the `fieldPatterns` record can produce this warning, and it is
the only warning whose `field` is `"title"`. -/
def titleHTMLWarnings (patterns : List (String × FieldPattern)) : List Issue :=
  patterns.filterMap (fun fp =>
    if fp.1 = "title" ∧ fp.2.hasHTML = true then
      some { level := "warning", message := "Title field contains HTML markup", field := fp.1,
             reliability := none }
    else none)

/-- Warning for a non-UTF-8 document encoding (lines 632–638). -/
def encodingWarnings (encoding : String) : List Issue :=
  if encoding = "UTF-8" then []
  else [{ level := "warning", message := "Feed uses " ++ encoding ++ " encoding instead of UTF-8",
          field := "encoding", reliability := none }]

/-- The validator's result record (lines 640–646). -/
structure Validation where
  isValid : Bool
  issues : List Issue
  warnings : List Issue
  suggestions : List Issue
  qualityScore : Int
  deriving Repr, DecidableEq

/-- `validateDataQuality(analysis)` (lines 563–647): all checks evaluated
independently, issues/warnings/suggestions accumulated in source push order,
`isValid` iff no issues, and the clamped quality score. -/
def validateDataQuality (a : Analysis) : Validation :=
  let issues := itemIssues a.itemCount ++ requiredFieldIssues a.fieldReliability
  let warnings := itemWarnings a.itemCount ++ dateWarnings a.fieldReliability
    ++ titleHTMLWarnings a.fieldPatterns ++ encodingWarnings a.encoding
  { isValid := decide (issues.length = 0)
    issues := issues
    warnings := warnings
    suggestions := imageSuggestions a.fieldReliability
    qualityScore := calculateQualityScore issues warnings }

/-- An enriched mapping for one target slot (lines 468–477): the chosen source
field, its reliability (`|| 0`), and its first representative sample
(`|| null`, so a falsy first sample is recorded as absent). -/
structure FieldMapping where
  field : String
  reliability : ℚ
  sample : Option FieldValue
  deriving Repr, DecidableEq

/-- The enrichment applied to every string-valued slot (lines 468–477). -/
def enrich (rel : String → Option ℚ) (samples : String → List FieldValue) :
    Option String → Option FieldMapping
  | none => none
  | some f =>
    some { field := f
           reliability := relV rel f
           sample := match (samples f).head? with
             | some v => if v.truthy then some v else none
             | none => none }

/-- The recommended mappings record (lines 422–480), in the object literal's
insertion order: title, link, description, date, image, author, category,
content. -/
structure Mappings where
  title : Option FieldMapping
  link : Option FieldMapping
  description : Option FieldMapping
  date : Option FieldMapping
  image : Option ImageCandidate
  author : Option FieldMapping
  category : Option FieldMapping
  content : Option FieldMapping
  deriving Repr, DecidableEq

/-- `generateFieldMappings(analysis)` (lines 422–480): each slot from its
fixed candidate list and threshold through `findBestField`, the image slot
through `findImageMapping`, then the string slots enriched. -/
def generateFieldMappings (a : Analysis) : Mappings :=
  let rel := a.fieldReliability
  let fs := a.fieldSamples
  { title := enrich rel fs (findBestField ["title", "auto_title"] rel 90)
    link := enrich rel fs (findBestField ["link", "guid", "id", "auto_link"] rel 90)
    description := enrich rel fs
      (findBestField ["description", "summary", "content", "content_encoded", "auto_description"] rel 70)
    date := enrich rel fs (findBestField ["pubDate", "published", "updated", "dc_date", "auto_pubdate"] rel 70)
    image := findImageMapping rel fs
    author := enrich rel fs (findBestField ["author", "dc_creator", "creator", "auto_author"] rel 30)
    category := enrich rel fs (findBestField ["category", "auto_category", "tags"] rel 30)
    content := enrich rel fs (findBestField ["content_encoded", "content", "description"] rel 50) }

/-- A `requiresProcessing` entry of the compatibility report. -/
structure ProcEntry where
  issue : String
  solution : String
  deriving Repr, DecidableEq

/-- A `recommendations` entry: either a custom-namespace note
(lines 679–682) or an HTML-stripping note for a field pattern
(lines 702–705). -/
inductive Recommendation where
  | ns (nsName message : String)
  | html (field message : String)
  deriving Repr, DecidableEq

/-- The compatibility report (lines 659–663). -/
structure Compat where
  isCompatible : Bool
  requiresProcessing : List ProcEntry
  recommendations : List Recommendation
  deriving Repr, DecidableEq

/-- The weak-mapping test `!mapping || (mapping.reliability && mapping.reliability < 50)`
(line 690) on a string slot. -/
def weakMapping : Option FieldMapping → Bool
  | none => true
  | some m => !(decide (m.reliability = 0)) && decide (m.reliability < 50)

/-- The same weak-mapping test on the image slot. -/
def weakImage : Option ImageCandidate → Bool
  | none => true
  | some c => !(decide (c.reliability = 0)) && decide (c.reliability < 50)

/-- The slot traversal of `Object.entries(mappings)` (lines 688–696), in the
mappings object's insertion order, paired with each slot's weakness. -/
def compatSlots (m : Mappings) : List (String × Bool) :=
  [("title", weakMapping m.title), ("link", weakMapping m.link),
   ("description", weakMapping m.description), ("date", weakMapping m.date),
   ("image", weakImage m.image), ("author", weakMapping m.author),
   ("category", weakMapping m.category), ("content", weakMapping m.content)]

/-- The HTML-stripping recommendations derived from field patterns
(lines 698–708): any pattern flagged `hasHTML` outside the content and
description slots. -/
def htmlStripRecommendations (patterns : List (String × FieldPattern)) : List Recommendation :=
  patterns.filterMap (fun fp =>
    if fp.2.hasHTML = true ∧ fp.1 ≠ "content" ∧ fp.1 ≠ "description" then
      some (.html fp.1 "Contains HTML - consider stripping tags")
    else none)

/-- `checkCompatibility(analysis)` (lines 658–711). -/
def checkCompatibility (a : Analysis) : Compat :=
  let typeOK := decide (a.feedType ∈ ["rss2.0", "atom", "rss1.0"])
  let mappings := generateFieldMappings a
  { isCompatible := typeOK
    requiresProcessing :=
      (if typeOK then [] else [{ issue := "Unknown feed type", solution := "Manual parsing may be required" }])
      ++ (compatSlots mappings).filterMap (fun p =>
          if p.2 then
            some { issue := "Weak mapping for " ++ p.1,
                   solution := "Consider fallback processing for " ++ p.1 }
          else none)
    recommendations :=
      a.namespaces.filterMap (fun n =>
        if n ∈ ["dc", "content", "media", "atom"] then none
        else some (.ns n ("Custom namespace '" ++ n ++ "' detected - may need special handling")))
      ++ htmlStripRecommendations a.fieldPatterns }

/-- The fetch collaborator's response (`http_request`, lines 67–75). -/
structure FetchResponse where
  success : Bool
  status : Option String
  body : String

/-- `fetchFeed(url)` (lines 64–82) over an abstract fetch collaborator: a
non-success response throws `Failed to fetch feed: <status || "Unknown error">`. -/
def fetchFeed (fetch : String → FetchResponse) (url : String) : Except String String :=
  let r := fetch url
  if r.success then .ok r.body
  else .error ("Failed to fetch feed: " ++
    (match r.status with
     | some s => if s = "" then "Unknown error" else s
     | none => "Unknown error"))

/-- The inputs record of the endpoint; `feed_url` may be absent, the optional
inputs default to `sample_size = 5` and `deep_scan = true` (line 18). -/
structure AnalyzeInputs where
  feed_url : Option String
  sample_size : Option Nat
  deep_scan : Option Bool

/-- JavaScript falsiness of the required `feed_url` input (`!feed_url`):
absent or the empty string. -/
def feedUrlFalsy (u : Option String) : Bool :=
  match u with
  | some s => s = ""
  | none => true

/-- The endpoint's result: the success report of lines 43–51 or the failure
report `{success:false, error, details}` of lines 53–57. The impure
`timestamp` field and the host-dependent `error.stack` detail string are not
modelled (`details` is carried as an optional string). There is no
constructor carrying both an error and a partial analysis. -/
inductive AnalyzeOutcome where
  | ok (feed_url : String) (analysis : Analysis) (recommended_mappings : Mappings)
      (validation : Validation) (compatibility : Compat)
  | fail (error : String) (details : Option String)

/-- `analyzeRSSFeed(inputs)` (lines 12–59) over the abstract fetch and DOM
parse collaborators: a falsy `feed_url` is rejected before fetching;
exceptions from fetching or parsing become the single failure report. -/
def analyzeRSSFeed (fetch : String → FetchResponse) (parse : String → ParsedDoc)
    (inputs : AnalyzeInputs) : AnalyzeOutcome :=
  if feedUrlFalsy inputs.feed_url then .fail "feed_url is required" none
  else
    let url := inputs.feed_url.getD ""
    match fetchFeed fetch url with
    | .error e => .fail e none
    | .ok body =>
      match analyzeFeedStructure (parse body) (inputs.sample_size.getD 5) (inputs.deep_scan.getD true) with
      | .error e => .fail e none
      | .ok analysis =>
        .ok url analysis (generateFieldMappings analysis) (validateDataQuality analysis)
          (checkCompatibility analysis)

/-! ### Concrete fixtures used by individual claims -/

/-- Reliability record of the image-precedence scenario: media_content 60,
enclosure 80. -/
def c1rel (f : String) : Option ℚ :=
  if f = "media_content" then some 60 else if f = "enclosure" then some 80 else none

/-- Sample record of the image-precedence scenario: the first enclosure sample
is image-typed. -/
def c1samples (f : String) : List FieldValue :=
  if f = "enclosure" then [.enclosure (some "https://x/a.jpg") (some "image/jpeg") none] else []

/-- A document whose `rss` root carries `version="0.91"`. -/
def c4doc : ParsedDoc :=
  { parseFail := none, rssRoot := true, rssVersion := some "0.91", feedRoot := false,
    rdfRoot := false, atomMeta := [], rssMeta := [], entryNodes := [], itemNodes := [],
    namespaces := [], characterSet := none }

/-- An Atom-style document without a version attribute on any `rss` root. -/
def c4docAtom : ParsedDoc :=
  { parseFail := none, rssRoot := false, rssVersion := none, feedRoot := true,
    rdfRoot := false, atomMeta := [], rssMeta := [], entryNodes := [], itemNodes := [],
    namespaces := [], characterSet := none }

/-- The link element of the Atom round-trip example:
`<link rel="alternate" href="https://x/1"/>`. -/
def atomLinkEx : LinkEl :=
  { href := some "https://x/1", rel := some "alternate", tAttr := none, textContent := "" }

/-- Reliability record `{a: 40, b: 95}`. -/
def c2relAB (f : String) : Option ℚ :=
  if f = "a" then some 40 else if f = "b" then some 95 else none

/-- Reliability record `{a: 40, b: 40}`. -/
def c2relAA (f : String) : Option ℚ :=
  if f = "a" then some 40 else if f = "b" then some 40 else none

/-- Maximum reliability over a candidate list, absent candidates counting 0;
used to characterize the fallback loop of `findBestField`. -/
def maxRelL (rel : String → Option ℚ) (l : List String) : ℚ :=
  l.foldr (fun f m => max (relV rel f) m) 0

/-- A default analysis record, used only to extract computed analyses from
`Except` in concrete witnesses. -/
def emptyAnalysis : Analysis :=
  { feedType := "", channelInfo := [], itemCount := 0, samplesAnalyzed := 0,
    uniqueFields := [], fieldReliability := fun _ => none, fieldSamples := fun _ => [],
    fieldPatterns := [], items := [], namespaces := [], encoding := "" }

/-- A structurally valid Atom document with zero entries. -/
def c6doc : ParsedDoc :=
  { parseFail := none, rssRoot := false, rssVersion := none, feedRoot := true,
    rdfRoot := false, atomMeta := [("title", some "empty feed")], rssMeta := [],
    entryNodes := [], itemNodes := [], namespaces := [], characterSet := some "UTF-8" }

/-- The analysis computed for the zero-item document `c6doc`. -/
def c6analysis : Analysis :=
  (analyzeFeedStructure c6doc 5 true).toOption.getD emptyAnalysis

/-- A fetch collaborator that always fails with status 404. -/
def c7fetchFail : String → FetchResponse :=
  fun _ => { success := false, status := some "404", body := "" }

/-- A fetch collaborator that succeeds with a body that will not parse. -/
def c7fetchOk : String → FetchResponse :=
  fun _ => { success := true, status := some "200", body := "<bad" }

/-- A parser that reports a parse error for any input. -/
def c7parseBad : String → ParsedDoc :=
  fun _ =>
    { parseFail := some "unexpected end of input", rssRoot := false, rssVersion := none,
      feedRoot := false, rdfRoot := false, atomMeta := [], rssMeta := [], entryNodes := [],
      itemNodes := [], namespaces := [], characterSet := none }

/-- Inputs with the required `feed_url` absent. -/
def c7inputsNoUrl : AnalyzeInputs :=
  { feed_url := none, sample_size := none, deep_scan := none }

/-- Inputs with a `feed_url` present. -/
def c7inputsUrl : AnalyzeInputs :=
  { feed_url := some "https://feeds.example/a", sample_size := none, deep_scan := none }

/-- A parseable one-item RSS document whose item carries an HTML-bearing
title, a deep-scan-only field, and a custom namespace. -/
def c10doc : ParsedDoc :=
  { parseFail := none, rssRoot := true, rssVersion := none, feedRoot := false,
    rdfRoot := false, atomMeta := [], rssMeta := [("title", some "t")],
    entryNodes := [],
    itemNodes := [([("title", FieldValue.str "<b>hello</b>")], [("auto_x", FieldValue.str "y")])],
    namespaces := ["custom"], characterSet := some "UTF-8" }

/-- The analysis computed for `c10doc` with deep scan disabled. -/
def c10analysis : Analysis :=
  (analyzeFeedStructure c10doc 5 false).toOption.getD emptyAnalysis

/-- String values of lengths 5, 7 and 3, observed in that scrambled order. -/
def c9values : List String := ["large", "1234567", "abc"]

/-- The pattern obtained by observing `c9values`. -/
def c9pattern : FieldPattern :=
  (observeValues (c9values.map FieldValue.str)).getD emptyPattern

end RSSAnalyzer

namespace RSSAnalyzer

/-! ### Helper lemmas -/

theorem getField_setField_self (fl : ItemFields) (k : String) (v : FieldValue) :
    getField (setField fl k v) k = some v := by
  induction fl with
  | nil => simp [setField, getField]
  | cons p rest ih =>
    by_cases h : p.1 = k
    · simp [setField, getField, h]
    · simp [setField, getField, h, ih]

theorem getField_setField_ne (fl : ItemFields) (k' k : String) (v : FieldValue)
    (h : k' ≠ k) : getField (setField fl k' v) k = getField fl k := by
  induction fl with
  | nil => simp [setField, getField, h]
  | cons p rest ih =>
    by_cases hp : p.1 = k'
    · simp [setField, getField, hp, h]
    · simp only [setField, hp, if_false]
      by_cases hk : p.1 = k
      · simp [getField, hk]
      · simp [getField, hk, ih]

/-! ### C1 — image mapping precedence -/

/-- **C1, counterexample.** In the scenario of the claim (media_content
reliability 60; enclosure reliability 80 with an image-typed first sample)
both candidates qualify, but `findImageMapping` returns the enclosure
candidate, not media_content: the claim that namespace priority beats the
higher raw reliability is false on the code, which sorts by reliability
descending (line 558). -/
theorem findImageMapping_counterexample :
    imageFieldCandidates c1rel c1samples =
      [{ source := "media_content", ctype := "media", reliability := 60 },
       { source := "enclosure", ctype := "enclosure", reliability := 80 }]
    ∧ (findImageMapping c1rel c1samples).map ImageCandidate.source ≠ some "media_content" := by
  decide

/-- **C1, amended.** With media_content at reliability 60 and enclosure at 80
with an image-typed first sample, both candidates qualify and
`findImageMapping` returns the enclosure candidate — the qualifying candidate
of highest reliability; the fixed namespace order decides only among equal
reliabilities. -/
theorem findImageMapping_enclosure_wins :
    imageFieldCandidates c1rel c1samples =
      [{ source := "media_content", ctype := "media", reliability := 60 },
       { source := "enclosure", ctype := "enclosure", reliability := 80 }]
    ∧ findImageMapping c1rel c1samples =
        some { source := "enclosure", ctype := "enclosure", reliability := 80 }
    ∧ ((imageFieldCandidates c1rel c1samples).all (fun c => c.reliability ≤ 80)) = true := by
  decide

/-! ### C4 — feed type detection -/

/-- **C4, counterexample.** `detectFeedType` does not always land in the
closed set {rss1.0, rss2.0, atom, unknown}: an `rss` root with
`version="0.91"` yields `"rss0.91"`. -/
theorem detectFeedType_counterexample :
    detectFeedType c4doc = "rss0.91"
    ∧ detectFeedType c4doc ∉ (["rss1.0", "rss2.0", "atom", "unknown"] : List String) := by
  constructor
  · rfl
  · decide

/-- **C4, amended.** `detectFeedType` never fails: an `rss` root yields
`"rss" ++ version` (defaulting to `"2.0"` when the attribute is absent or
empty) with priority over a `feed` root (atom), which has priority over an
RDF root (rss1.0); anything else is unknown. The result lies in the closed
set {rss1.0, rss2.0, atom, unknown} exactly when any present `rss` root's
effective version is `"1.0"` or `"2.0"`. -/
theorem detectFeedType_spec (d : ParsedDoc) :
    (d.rssRoot = true → detectFeedType d = "rss" ++ versionOrDefault d.rssVersion)
    ∧ (d.rssRoot = false → d.feedRoot = true → detectFeedType d = "atom")
    ∧ (d.rssRoot = false → d.feedRoot = false → d.rdfRoot = true → detectFeedType d = "rss1.0")
    ∧ (d.rssRoot = false → d.feedRoot = false → d.rdfRoot = false → detectFeedType d = "unknown")
    ∧ ((d.rssRoot = true → versionOrDefault d.rssVersion ∈ (["1.0", "2.0"] : List String)) →
        detectFeedType d ∈ (["rss1.0", "rss2.0", "atom", "unknown"] : List String)) := by
  refine ⟨?_, ?_, ?_, ?_, ?_⟩ <;> intros h1 <;> try intros h2 <;> try intros h3
  · simp [detectFeedType, h1]
  · simp [detectFeedType, h1, h2]
  · simp [detectFeedType, h1, h2, h3]
  · simp [detectFeedType, h1, h2, h3]
  · by_cases hr : d.rssRoot = true
    · have hv := h1 hr
      simp only [detectFeedType, hr, if_true]
      rcases List.mem_pair.mp hv with h | h <;> rw [h] <;> decide
    · replace hr : d.rssRoot = false := by simpa using hr
      by_cases hf : d.feedRoot = true
      · simp [detectFeedType, hr, hf]
      · replace hf : d.feedRoot = false := by simpa using hf
        by_cases hd : d.rdfRoot = true
        · simp [detectFeedType, hr, hf, hd]
        · replace hd : d.rdfRoot = false := by simpa using hd
          simp [detectFeedType, hr, hf, hd]

/-- **C4, witness.** The amended theorem applied to an Atom document. -/
theorem detectFeedType_spec_witness :
    detectFeedType c4docAtom = "atom"
    ∧ detectFeedType c4docAtom ∈ (["rss1.0", "rss2.0", "atom", "unknown"] : List String) := by
  refine ⟨(detectFeedType_spec c4docAtom).2.1 rfl rfl,
          (detectFeedType_spec c4docAtom).2.2.2.2 ?_⟩
  intro h
  exact absurd h (by decide)

/-! ### C5 — quality score and validity -/

/-- **C5.** For every analysis, the quality score equals 100 minus 20 per
issue minus 5 per warning, clamped into [0, 100] (so it always lies in
[0, 100]), and `isValid` holds exactly when the issues list is empty —
warnings and suggestions never affect validity. -/
theorem validateDataQuality_score_valid (a : Analysis) :
    (validateDataQuality a).qualityScore =
      max 0 (min 100 (100 - ((validateDataQuality a).issues.length : Int) * 20
        - ((validateDataQuality a).warnings.length : Int) * 5))
    ∧ 0 ≤ (validateDataQuality a).qualityScore
    ∧ (validateDataQuality a).qualityScore ≤ 100
    ∧ ((validateDataQuality a).isValid = true ↔ (validateDataQuality a).issues = []) := by
  refine ⟨rfl, le_max_left 0 _, ?_, ?_⟩
  · exact max_le (by norm_num) ((min_le_left _ _))
  · simp only [validateDataQuality, decide_eq_true_eq]
    exact List.length_eq_zero

/-! ### C8 — link extraction -/

/-- **C8.** When a link element is found, the extracted `link` field prefers a
non-empty `href` attribute over the text content (and falls back to the text
content when `href` is absent), `link_rel` records a present `rel` attribute
and `link_type` a present `type` attribute; in particular the Atom entry link
`<link rel="alternate" href="https://x/1"/>` extracts
`link = "https://x/1"` and `link_rel = "alternate"`. -/
theorem resolveLink_spec :
    (∀ (fl : ItemFields) (le : LinkEl) (h : String), le.href = some h → h ≠ "" →
      getField (resolveLink fl (some le)) "link" = some (.str h))
    ∧ (∀ (fl : ItemFields) (le : LinkEl), le.href = none →
      getField (resolveLink fl (some le)) "link" = some (.str le.textContent))
    ∧ (∀ (fl : ItemFields) (le : LinkEl) (r : String), le.rel = some r →
      getField (resolveLink fl (some le)) "link_rel" = some (.str r))
    ∧ (∀ (fl : ItemFields) (le : LinkEl) (t : String), le.tAttr = some t →
      getField (resolveLink fl (some le)) "link_type" = some (.str t))
    ∧ getField (resolveLink [] (some atomLinkEx)) "link" = some (.str "https://x/1")
    ∧ getField (resolveLink [] (some atomLinkEx)) "link_rel" = some (.str "alternate") := by
  refine ⟨?_, ?_, ?_, ?_, by decide, by decide⟩
  · intro fl le h hh hne
    simp only [resolveLink, hh, if_neg hne]
    rw [getField_setField_ne _ _ _ _ (by decide), getField_setField_ne _ _ _ _ (by decide),
      getField_setField_self]
  · intro fl le hh
    simp only [resolveLink, hh]
    rw [getField_setField_ne _ _ _ _ (by decide), getField_setField_ne _ _ _ _ (by decide),
      getField_setField_self]
  · intro fl le r hr
    simp only [resolveLink, hr]
    rw [getField_setField_ne _ _ _ _ (by decide), getField_setField_self]
  · intro fl le t ht
    simp only [resolveLink, ht]
    rw [getField_setField_self]

/-- **C8, witness.** The general parts of the theorem applied to the Atom
round-trip link element over an empty field record. -/
theorem resolveLink_spec_witness :
    getField (resolveLink [] (some atomLinkEx)) "link" = some (.str "https://x/1")
    ∧ getField (resolveLink [] (some atomLinkEx)) "link_rel" = some (.str "alternate") :=
  ⟨resolveLink_spec.1 [] atomLinkEx "https://x/1" rfl (by decide),
   resolveLink_spec.2.2.1 [] atomLinkEx "alternate" rfl⟩

/-! ### C9 — running average length -/

/-- Folding string observations with an existing pattern; the per-field loop
of `analyzeFeedStructure` after the first observation. -/
def foldStrs (ss : List String) (p : FieldPattern) : FieldPattern :=
  ss.foldl (fun q v => analyzeFieldPattern (.str v) (some q)) p

theorem afp_str_samples (op : Option FieldPattern) (s : String) :
    (analyzeFieldPattern (.str s) op).samples = (op.getD emptyPattern).samples + 1 := by
  simp only [analyzeFieldPattern]
  repeat' split
  all_goals rfl

theorem afp_str_avg (op : Option FieldPattern) (s : String) :
    (analyzeFieldPattern (.str s) op).avgLength =
      ((op.getD emptyPattern).avgLength * ((op.getD emptyPattern).samples : ℚ) + (s.length : ℚ))
        / (((op.getD emptyPattern).samples : ℚ) + 1) := by
  simp only [analyzeFieldPattern]
  repeat' split
  all_goals rfl

theorem observeValues_foldStrs (l : List String) (p : FieldPattern) :
    List.foldl (fun acc v => some (analyzeFieldPattern v acc)) (some p) (l.map FieldValue.str) =
      some (foldStrs l p) := by
  induction l generalizing p with
  | nil => rfl
  | cons s rest ih =>
    simp only [List.map_cons, List.foldl_cons]
    exact ih (analyzeFieldPattern (.str s) (some p))

theorem foldStrs_stats (ss : List String) (p : FieldPattern) :
    (foldStrs ss p).samples = p.samples + ss.length
    ∧ (foldStrs ss p).avgLength * ((p.samples : ℚ) + (ss.length : ℚ)) =
        p.avgLength * (p.samples : ℚ) + (ss.map (fun s => (s.length : ℚ))).sum := by
  induction ss generalizing p with
  | nil =>
    refine ⟨rfl, ?_⟩
    simp only [foldStrs, List.foldl_nil, List.length_nil, List.map_nil, List.sum_nil,
      Nat.cast_zero, add_zero]
  | cons s rest ih =>
    have hstep : foldStrs (s :: rest) p = foldStrs rest (analyzeFieldPattern (.str s) (some p)) := rfl
    set q := analyzeFieldPattern (.str s) (some p) with hq
    have hq_s : q.samples = p.samples + 1 := afp_str_samples (some p) s
    have hq_a : q.avgLength = (p.avgLength * (p.samples : ℚ) + (s.length : ℚ)) / ((p.samples : ℚ) + 1) :=
      afp_str_avg (some p) s
    obtain ⟨ih1, ih2⟩ := ih q
    constructor
    · rw [hstep, ih1, hq_s, List.length_cons]
      omega
    · rw [hstep]
      have hcast : (p.samples : ℚ) + ((s :: rest).length : ℚ) = (q.samples : ℚ) + (rest.length : ℚ) := by
        rw [hq_s, List.length_cons]
        push_cast
        ring
      rw [hcast, ih2, hq_a]
      have hne : ((p.samples : ℚ) + 1) ≠ 0 := by positivity
      have hqcast : ((q.samples : ℕ) : ℚ) = (p.samples : ℚ) + 1 := by
        rw [hq_s]
        push_cast
        ring
      rw [hqcast, div_mul_cancel₀ _ hne]
      simp only [List.map_cons, List.sum_cons]
      ring

/-- **C9.** Folding any nonempty sequence of string values through
`analyzeFieldPattern` yields an `avgLength` equal to the arithmetic mean of
the value lengths; the mean is therefore independent of the observation
order, and values of lengths 3, 5 and 7 in any order give exactly 5. -/
theorem analyzeFieldPattern_mean :
    (∀ (ss : List String) (p : FieldPattern), ss ≠ [] →
      observeValues (ss.map FieldValue.str) = some p →
      p.avgLength = (ss.map (fun s => (s.length : ℚ))).sum / (ss.length : ℚ))
    ∧ (∀ (ss₁ ss₂ : List String) (p₁ p₂ : FieldPattern), ss₁.Perm ss₂ →
      observeValues (ss₁.map FieldValue.str) = some p₁ →
      observeValues (ss₂.map FieldValue.str) = some p₂ →
      p₁.avgLength = p₂.avgLength)
    ∧ (∀ (ss : List String) (p : FieldPattern), (ss.map String.length).Perm [3, 5, 7] →
      observeValues (ss.map FieldValue.str) = some p → p.avgLength = 5) := by
  have mean : ∀ (ss : List String) (p : FieldPattern), ss ≠ [] →
      observeValues (ss.map FieldValue.str) = some p →
      p.avgLength = (ss.map (fun s => (s.length : ℚ))).sum / (ss.length : ℚ) := by
    intro ss p hne hobs
    obtain ⟨s0, rest, rfl⟩ := List.exists_cons_of_ne_nil hne
    rw [observeValues, List.map_cons, List.foldl_cons,
      observeValues_foldStrs rest (analyzeFieldPattern (.str s0) none)] at hobs
    obtain rfl : foldStrs rest (analyzeFieldPattern (.str s0) none) = p := by
      injection hobs
    set p0 := analyzeFieldPattern (.str s0) none with hp0
    have h0s : p0.samples = 1 := by
      rw [hp0, afp_str_samples]
      rfl
    have h0a : p0.avgLength = (s0.length : ℚ) := by
      rw [hp0, afp_str_avg]
      show ((emptyPattern.avgLength * _ + _) / _ : ℚ) = _
      simp [emptyPattern]
    obtain ⟨hs, ha⟩ := foldStrs_stats rest p0
    have h0sq : ((p0.samples : ℕ) : ℚ) = 1 := by
      rw [h0s]
      norm_num
    rw [h0sq, h0a, mul_one] at ha
    have hlen : (((s0 :: rest).length : ℕ) : ℚ) = (1 : ℚ) + (rest.length : ℚ) := by
      rw [List.length_cons]
      push_cast
      ring
    have hlen_ne : (((s0 :: rest).length : ℕ) : ℚ) ≠ 0 := by
      rw [hlen]
      positivity
    rw [eq_div_iff hlen_ne, hlen, List.map_cons, List.sum_cons]
    exact ha
  refine ⟨mean, ?_, ?_⟩
  · intro ss₁ ss₂ p₁ p₂ hperm h₁ h₂
    have hne₁ : ss₁ ≠ [] := by
      rintro rfl
      simp [observeValues] at h₁
    have hne₂ : ss₂ ≠ [] := by
      rintro rfl
      simp [observeValues] at h₂
    rw [mean ss₁ p₁ hne₁ h₁, mean ss₂ p₂ hne₂ h₂,
      (hperm.map (fun s => (s.length : ℚ))).sum_eq, hperm.length_eq]
  · intro ss p hperm hobs
    have hne : ss ≠ [] := by
      rintro rfl
      simp at hperm
    have hsum : (ss.map (fun s => (s.length : ℚ))).sum = 15 := by
      have hmm : ss.map (fun s => (s.length : ℚ)) = (ss.map String.length).map (fun n : ℕ => (n : ℚ)) := by
        simp [List.map_map, Function.comp]
      rw [hmm, (hperm.map (fun n : ℕ => (n : ℚ))).sum_eq]
      norm_num
    have hlen : ss.length = 3 := by
      have hl := hperm.length_eq
      simpa using hl
    rw [mean ss p hne hobs, hsum, hlen]
    norm_num

/-- **C9, witness.** Observing values of lengths 5, 7 and 3 in that order
yields average length exactly 5. -/
theorem analyzeFieldPattern_mean_witness : c9pattern.avgLength = 5 :=
  analyzeFieldPattern_mean.2.2 c9values c9pattern (by decide) (by rfl)

/-! ### C3 — reliability invariant -/

theorem fieldOccurrences_eq_sum (keyLists : List (List String)) (f : String) :
    fieldOccurrences keyLists f = (keyLists.map (fun it => it.count f)).sum := by
  suffices h : ∀ (ls : List (List String)) (n : Nat),
      ls.foldl (fun n it => n + it.count f) n = n + (ls.map (fun it => it.count f)).sum by
    simpa using h keyLists 0
  intro ls
  induction ls with
  | nil => simp
  | cons it rest ih =>
    intro n
    simp only [List.foldl_cons, List.map_cons, List.sum_cons, ih]
    omega

theorem mem_allFieldsList (keyLists : List (List String)) (f : String) :
    f ∈ allFieldsList keyLists ↔ ∃ it ∈ keyLists, f ∈ it := by
  simp [allFieldsList, List.mem_dedup, List.mem_flatten]

theorem sum_counts_le (keyLists : List (List String)) (f : String)
    (hnd : ∀ it ∈ keyLists, it.Nodup) :
    (keyLists.map (fun it => it.count f)).sum ≤ keyLists.length := by
  induction keyLists with
  | nil => simp
  | cons it rest ih =>
    simp only [List.map_cons, List.sum_cons, List.length_cons]
    have h1 : it.count f ≤ 1 :=
      List.nodup_iff_count_le_one.mp (hnd it (List.mem_cons_self it rest)) f
    have h2 := ih (fun i hi => hnd i (List.mem_cons_of_mem it hi))
    omega

theorem sum_counts_pos (keyLists : List (List String)) (f : String)
    (hf : ∃ it ∈ keyLists, f ∈ it) :
    0 < (keyLists.map (fun it => it.count f)).sum := by
  induction keyLists with
  | nil => simp at hf
  | cons it rest ih =>
    simp only [List.map_cons, List.sum_cons]
    rcases hf with ⟨i, hi, hfi⟩
    rcases List.mem_cons.mp hi with rfl | hi'
    · have := List.count_pos_iff.mpr hfi
      omega
    · have := ih ⟨i, hi', hfi⟩
      omega

theorem sum_counts_eq_length (keyLists : List (List String)) (f : String)
    (hnd : ∀ it ∈ keyLists, it.Nodup) (hall : ∀ it ∈ keyLists, f ∈ it) :
    (keyLists.map (fun it => it.count f)).sum = keyLists.length := by
  induction keyLists with
  | nil => simp
  | cons it rest ih =>
    simp only [List.map_cons, List.sum_cons, List.length_cons]
    have h1 : it.count f = 1 :=
      List.count_eq_one_of_mem (hnd it (List.mem_cons_self it rest)) (hall it (List.mem_cons_self it rest))
    have h2 := ih (fun i hi => hnd i (List.mem_cons_of_mem it hi))
      (fun i hi => hall i (List.mem_cons_of_mem it hi))
    omega

/-- **C3.** For any collection of sampled item key lists (each with the
unique keys a JavaScript object guarantees) and every field present in the
reliability record, the reliability equals occurrence count over samples
analyzed times 100 and lies in [0, 100]; a field present in every sampled
item has reliability exactly 100. -/
theorem fieldReliability_spec (keyLists : List (List String)) (f : String) (r : ℚ)
    (hnd : ∀ it ∈ keyLists, it.Nodup)
    (hr : fieldReliabilityOf keyLists f = some r) :
    r = ((fieldOccurrences keyLists f : ℕ) : ℚ) / (keyLists.length : ℚ) * 100
    ∧ 0 ≤ r ∧ r ≤ 100
    ∧ ((∀ it ∈ keyLists, f ∈ it) → r = 100) := by
  have hmem : f ∈ allFieldsList keyLists := by
    by_contra h
    simp [fieldReliabilityOf, h] at hr
  have hval : r = ((fieldOccurrences keyLists f : ℕ) : ℚ) / (keyLists.length : ℚ) * 100 := by
    simp only [fieldReliabilityOf, hmem, if_true, Option.some.injEq] at hr
    exact hr.symm
  have hocc := fieldOccurrences_eq_sum keyLists f
  have hlen_pos : 0 < keyLists.length := by
    rcases (mem_allFieldsList keyLists f).mp hmem with ⟨it, hit, _⟩
    exact List.length_pos.mpr (by rintro rfl; simp at hit)
  have hlenq : (0 : ℚ) < (keyLists.length : ℚ) := by exact_mod_cast hlen_pos
  refine ⟨hval, ?_, ?_, ?_⟩
  · rw [hval]
    positivity
  · rw [hval]
    have hle : fieldOccurrences keyLists f ≤ keyLists.length := by
      rw [hocc]
      exact sum_counts_le keyLists f hnd
    have hdiv : ((fieldOccurrences keyLists f : ℕ) : ℚ) / (keyLists.length : ℚ) ≤ 1 := by
      rw [div_le_one hlenq]
      exact_mod_cast hle
    calc ((fieldOccurrences keyLists f : ℕ) : ℚ) / (keyLists.length : ℚ) * 100
        ≤ 1 * 100 := by
          exact mul_le_mul_of_nonneg_right hdiv (by norm_num)
      _ = 100 := by norm_num
  · intro hall
    have heq : fieldOccurrences keyLists f = keyLists.length := by
      rw [hocc]
      exact sum_counts_eq_length keyLists f hnd hall
    rw [hval, heq, div_self (ne_of_gt hlenq)]
    norm_num

/-- **C3, witness.** Two sampled items both carrying `title`, one carrying
`link`: `title` has reliability 100, and the theorem's bounds apply. -/
theorem fieldReliability_spec_witness :
    fieldReliabilityOf [["title", "link"], ["title"]] "title" = some 100
    ∧ (100 : ℚ) = ((fieldOccurrences [["title", "link"], ["title"]] "title" : ℕ) : ℚ)
        / (([["title", "link"], ["title"]] : List (List String)).length : ℚ) * 100
    ∧ (0 : ℚ) ≤ 100 ∧ (100 : ℚ) ≤ 100 := by
  have hocc : fieldOccurrences [["title", "link"], ["title"]] "title" = 2 := by decide
  have hmem : "title" ∈ allFieldsList [["title", "link"], ["title"]] := by decide
  have hr : fieldReliabilityOf [["title", "link"], ["title"]] "title" = some 100 := by
    simp only [fieldReliabilityOf, hmem, if_true, hocc]
    norm_num
  have h := fieldReliability_spec [["title", "link"], ["title"]] "title" 100 (by decide) hr
  exact ⟨hr, h.1, h.2.1, h.2.2.1⟩

/-! ### C2 — findBestField selection rule -/

theorem le_maxRelL (rel : String → Option ℚ) (l : List String) :
    ∀ g ∈ l, relV rel g ≤ maxRelL rel l := by
  induction l with
  | nil => simp
  | cons f rest ih =>
    intro g hg
    rcases List.mem_cons.mp hg with rfl | hg'
    · exact le_max_left _ _
    · exact le_trans (ih g hg') (le_max_right _ _)

theorem maxRelL_nonneg (rel : String → Option ℚ) (l : List String) :
    0 ≤ maxRelL rel l := by
  induction l with
  | nil => exact le_refl 0
  | cons f rest ih => exact le_trans ih (le_max_right _ _)

theorem maxRelL_le (rel : String → Option ℚ) (l : List String) (s : ℚ)
    (h0 : 0 ≤ s) (h : ∀ g ∈ l, relV rel g ≤ s) : maxRelL rel l ≤ s := by
  induction l with
  | nil => exact h0
  | cons f rest ih =>
    exact max_le (h f (List.mem_cons_self f rest))
      (ih (fun g hg => h g (List.mem_cons_of_mem f hg)))

theorem findBestLoop_keep (rel : String → Option ℚ) (l : List String)
    (b : Option String) (s : ℚ) (h : maxRelL rel l ≤ s) :
    findBestLoop rel l b s = (b, s) := by
  induction l generalizing b s with
  | nil => rfl
  | cons f rest ih =>
    have hmax : max (relV rel f) (maxRelL rel rest) ≤ s := h
    cases hrel : rel f with
    | none =>
      simp only [findBestLoop, hrel]
      exact ih b s (le_trans (le_max_right _ _) hmax)
    | some r =>
      have hr : r ≤ s := by
        have := le_trans (le_max_left (relV rel f) (maxRelL rel rest)) hmax
        rwa [relV, hrel, Option.getD_some] at this
      simp only [findBestLoop, hrel, if_neg (not_lt.mpr hr)]
      exact ih b s (le_trans (le_max_right _ _) hmax)

theorem findBestLoop_found (rel : String → Option ℚ) :
    ∀ (l : List String) (b : Option String) (s : ℚ), 0 ≤ s → s < maxRelL rel l →
    ∃ l₁ f l₂, l = l₁ ++ f :: l₂
      ∧ findBestLoop rel l b s = (some f, relV rel f)
      ∧ relV rel f = maxRelL rel l
      ∧ ∀ g ∈ l₁, relV rel g < maxRelL rel l := by
  intro l
  induction l with
  | nil =>
    intro b s hs hlt
    exact absurd (lt_of_le_of_lt hs hlt) (by simp [maxRelL])
  | cons f rest ih =>
    intro b s hs hlt
    have hmax : maxRelL rel (f :: rest) = max (relV rel f) (maxRelL rel rest) := rfl
    cases hrel : rel f with
    | none =>
      have hv : relV rel f = 0 := by simp [relV, hrel]
      have hm : maxRelL rel (f :: rest) = maxRelL rel rest := by
        rw [hmax, hv, max_eq_right (maxRelL_nonneg rel rest)]
      have hlt' : s < maxRelL rel rest := by rwa [hm] at hlt
      obtain ⟨l₁, g, l₂, hsplit, hloop, hval, hlts⟩ := ih b s hs hlt'
      refine ⟨f :: l₁, g, l₂, by rw [hsplit, List.cons_append], ?_, by rw [hm]; exact hval, ?_⟩
      · simpa only [findBestLoop, hrel] using hloop
      · intro x hx
        rcases List.mem_cons.mp hx with rfl | hx'
        · rw [hv, hm]
          exact lt_of_le_of_lt hs hlt'
        · rw [hm]
          exact hlts x hx'
    | some r =>
      have hv : relV rel f = r := by simp [relV, hrel]
      by_cases hr : s < r
      · by_cases hrest : maxRelL rel rest ≤ r
        · have hm : maxRelL rel (f :: rest) = r := by
            rw [hmax, hv, max_eq_left hrest]
          refine ⟨[], f, rest, rfl, ?_, by rw [hv, hm], by simp⟩
          have hkeep := findBestLoop_keep rel rest (some f) r hrest
          simp only [findBestLoop, hrel, if_pos hr]
          rw [hkeep, hv]
        · push_neg at hrest
          have hm : maxRelL rel (f :: rest) = maxRelL rel rest := by
            rw [hmax, hv, max_eq_right (le_of_lt hrest)]
          have hr0 : (0 : ℚ) ≤ r := le_trans hs (le_of_lt hr)
          obtain ⟨l₁, g, l₂, hsplit, hloop, hval, hlts⟩ := ih (some f) r hr0 hrest
          refine ⟨f :: l₁, g, l₂, by rw [hsplit, List.cons_append], ?_, by rw [hm]; exact hval, ?_⟩
          · simpa only [findBestLoop, hrel, if_pos hr] using hloop
          · intro x hx
            rcases List.mem_cons.mp hx with rfl | hx'
            · rw [hv, hm]
              exact hrest
            · rw [hm]
              exact hlts x hx'
      · push_neg at hr
        have hlt2 : s < max r (maxRelL rel rest) := by rwa [hmax, hv] at hlt
        have hlt' : s < maxRelL rel rest := by
          rcases lt_max_iff.mp hlt2 with h1 | h2
          · exact absurd h1 (not_lt.mpr hr)
          · exact h2
        obtain ⟨l₁, g, l₂, hsplit, hloop, hval, hlts⟩ := ih b s hs hlt'
        have hm : maxRelL rel (f :: rest) = maxRelL rel rest := by
          rw [hmax, hv]
          exact max_eq_right (le_trans hr (le_of_lt hlt'))
        refine ⟨f :: l₁, g, l₂, by rw [hsplit, List.cons_append], ?_, by rw [hm]; exact hval, ?_⟩
        · simpa only [findBestLoop, hrel, if_neg (not_lt.mpr hr)] using hloop
        · intro x hx
          rcases List.mem_cons.mp hx with rfl | hx'
          · rw [hv, hm]
            exact lt_of_le_of_lt hr hlt'
          · rw [hm]
            exact hlts x hx'

theorem findFirstMeeting_of_split (rel : String → Option ℚ) (t : ℚ)
    (l₁ : List String) (f : String) (l₂ : List String)
    (hfail : ∀ g ∈ l₁, relMeets rel t g = false) (hf : relMeets rel t f = true) :
    findFirstMeeting rel t (l₁ ++ f :: l₂) = some f := by
  induction l₁ with
  | nil =>
    cases hrel : rel f with
    | none => rw [relMeets, hrel] at hf; exact absurd hf (by simp)
    | some r =>
      rw [relMeets, hrel, decide_eq_true_eq] at hf
      simp only [List.nil_append, findFirstMeeting, hrel, if_pos hf]
  | cons g rest ih =>
    have hg := hfail g (List.mem_cons_self g rest)
    have hrest := fun x hx => hfail x (List.mem_cons_of_mem g hx)
    cases hrel : rel g with
    | none => simpa only [List.cons_append, findFirstMeeting, hrel] using ih hrest
    | some r =>
      rw [relMeets, hrel, decide_eq_false_iff_not] at hg
      simp only [List.cons_append, findFirstMeeting, hrel, if_neg hg]
      exact ih hrest

theorem findFirstMeeting_none (rel : String → Option ℚ) (t : ℚ) (l : List String)
    (hfail : ∀ g ∈ l, relMeets rel t g = false) :
    findFirstMeeting rel t l = none := by
  induction l with
  | nil => rfl
  | cons g rest ih =>
    have hg := hfail g (List.mem_cons_self g rest)
    have hrest := fun x hx => hfail x (List.mem_cons_of_mem g hx)
    cases hrel : rel g with
    | none => simpa only [findFirstMeeting, hrel] using ih hrest
    | some r =>
      rw [relMeets, hrel, decide_eq_false_iff_not] at hg
      simp only [findFirstMeeting, hrel, if_neg hg]
      exact ih hrest

/-- **C2.** `findBestField` returns the first candidate in list order whose
reliability meets the threshold (absent candidates never meet it); when no
candidate meets the threshold it returns the candidate of strictly highest
reliability, earlier candidates winning ties, or `none` when every candidate
has zero (or absent) reliability. In particular, over `[a, b]` with
reliabilities `{a:40, b:95}` and threshold 90 it returns `b`, and with
`{a:40, b:40}` it returns `a`. -/
theorem findBestField_spec :
    (∀ (candidates : List String) (rel : String → Option ℚ) (t : ℚ),
      (∀ (l₁ : List String) (f : String) (l₂ : List String), candidates = l₁ ++ f :: l₂ →
        (∀ g ∈ l₁, relMeets rel t g = false) → relMeets rel t f = true →
        findBestField candidates rel t = some f)
      ∧ ((∀ g ∈ candidates, relMeets rel t g = false) →
          ((∀ g ∈ candidates, relV rel g = 0) → findBestField candidates rel t = none)
          ∧ (∀ g₀ ∈ candidates, 0 < relV rel g₀ →
              ∃ l₁ f l₂, candidates = l₁ ++ f :: l₂
                ∧ findBestField candidates rel t = some f
                ∧ (∀ g ∈ candidates, relV rel g ≤ relV rel f)
                ∧ (∀ g ∈ l₁, relV rel g < relV rel f))))
    ∧ findBestField ["a", "b"] c2relAB 90 = some "b"
    ∧ findBestField ["a", "b"] c2relAA 90 = some "a" := by
  refine ⟨?_, by decide, by decide⟩
  intro candidates rel t
  constructor
  · intro l₁ f l₂ hsplit hfail hf
    rw [findBestField, hsplit, findFirstMeeting_of_split rel t l₁ f l₂ hfail hf]
  · intro hallfail
    have hfirst : findFirstMeeting rel t candidates = none :=
      findFirstMeeting_none rel t candidates hallfail
    constructor
    · intro hzero
      have hmax : maxRelL rel candidates ≤ 0 :=
        maxRelL_le rel candidates 0 (le_refl 0) (fun g hg => le_of_eq (hzero g hg))
      rw [findBestField, hfirst, findBestLoop_keep rel candidates none 0 hmax]
    · intro g₀ hg₀ hpos
      have hlt : (0 : ℚ) < maxRelL rel candidates :=
        lt_of_lt_of_le hpos (le_maxRelL rel candidates g₀ hg₀)
      obtain ⟨l₁, f, l₂, hsplit, hloop, hval, hlts⟩ :=
        findBestLoop_found rel candidates none 0 (le_refl 0) hlt
      refine ⟨l₁, f, l₂, hsplit, ?_, ?_, ?_⟩
      · rw [findBestField, hfirst, hloop]
      · intro g hg
        rw [hval]
        exact le_maxRelL rel candidates g hg
      · intro g hg
        rw [hval]
        exact hlts g hg

/-- **C2, witness.** The selection rule applied to the concrete two-candidate
records of the claim. -/
theorem findBestField_spec_witness :
    findBestField ["a", "b"] c2relAB 90 = some "b"
    ∧ findBestField ["a", "b"] c2relAA 90 = some "a" := by
  have hAB := (findBestField_spec.1 ["a", "b"] c2relAB 90).1
    ["a"] "b" [] rfl (by decide) (by decide)
  refine ⟨hAB, findBestField_spec.2.2⟩

/-! ### C6 — zero-item feeds -/

theorem validate_of_no_items (a : Analysis) (h : a.itemCount = 0)
    (hrel : ∀ f, a.fieldReliability f = none) :
    (validateDataQuality a).isValid = false
    ∧ ((validateDataQuality a).issues.filter (fun i => i.field = "items")).length = 1
    ∧ (validateDataQuality a).qualityScore ≤ 80 := by
  have hiss : (validateDataQuality a).issues =
      [{ level := "error", message := "Feed contains no items", field := "items", reliability := none },
       { level := "error", message := "Missing or unreliable field: title", field := "title", reliability := some 0 },
       { level := "error", message := "Missing or unreliable field: link", field := "link", reliability := some 0 },
       { level := "error", message := "Missing or unreliable field: description", field := "description", reliability := some 0 }] := by
    simp [validateDataQuality, itemIssues, requiredFieldIssues, h, hrel, isFalsyOrLt50, relV]
  refine ⟨?_, ?_, ?_⟩
  · have : (validateDataQuality a).isValid = decide ((validateDataQuality a).issues.length = 0) := rfl
    rw [this, hiss]
    rfl
  · rw [hiss]
    rfl
  · have hq : (validateDataQuality a).qualityScore =
        calculateQualityScore (validateDataQuality a).issues (validateDataQuality a).warnings := rfl
    have hlen : ((validateDataQuality a).issues.length : Int) = 4 := by
      rw [hiss]
      rfl
    rw [hq, calculateQualityScore, hlen]
    have hw : (0 : Int) ≤ ((validateDataQuality a).warnings.length : Int) := Int.ofNat_nonneg _
    refine max_le (by norm_num) (le_trans (min_le_right _ _) ?_)
    linarith

/-- **C6.** A structurally valid feed with zero items still analyzes
successfully — the zero-item condition neither raises an error nor aborts the
call — and its validation has `isValid = false`, exactly one issue whose
field is `"items"`, and a quality score of at most 80. -/
theorem analyzeFeedStructure_zero_items (d : ParsedDoc) (sampleSize : Nat) (deepScan : Bool)
    (hpe : d.parseFail = none) (hempty : docItems d = []) :
    (analyzeFeedStructure d sampleSize deepScan).isOk = true
    ∧ ∀ a, analyzeFeedStructure d sampleSize deepScan = .ok a →
        a.itemCount = 0
        ∧ (validateDataQuality a).isValid = false
        ∧ ((validateDataQuality a).issues.filter (fun i => i.field = "items")).length = 1
        ∧ (validateDataQuality a).qualityScore ≤ 80 := by
  constructor
  · simp only [analyzeFeedStructure, hpe]
    rfl
  · intro a ha
    simp only [analyzeFeedStructure, hpe] at ha
    obtain rfl : _ = a := by
      injection ha
    have hcount : ((docItems d).length : Nat) = 0 := by
      rw [hempty]
      rfl
    have hrel : ∀ f,
        fieldReliabilityOf
          ((((docItems d).take (min sampleSize (docItems d).length)).map
            (fun it => extractItemFields it deepScan)).map (fun fl => fl.map Prod.fst)) f = none := by
      intro f
      simp [hempty, fieldReliabilityOf, allFieldsList]
    refine ⟨hcount, ?_⟩
    exact validate_of_no_items _ hcount hrel

/-- **C6, witness.** The theorem applied to a concrete zero-entry Atom
document. -/
theorem analyzeFeedStructure_zero_items_witness :
    (analyzeFeedStructure c6doc 5 true).isOk = true
    ∧ c6analysis.itemCount = 0
    ∧ (validateDataQuality c6analysis).isValid = false
    ∧ ((validateDataQuality c6analysis).issues.filter (fun i => i.field = "items")).length = 1
    ∧ (validateDataQuality c6analysis).qualityScore ≤ 80 := by
  have h := analyzeFeedStructure_zero_items c6doc 5 true rfl rfl
  have h2 := h.2 c6analysis (by rfl)
  exact ⟨h.1, h2.1, h2.2.1, h2.2.2.1, h2.2.2.2⟩

/-! ### C7 — error handling of the endpoint -/

/-- **C7.** A falsy `feed_url` is rejected with a validation failure whose
outcome does not depend on the fetch or parse collaborators (no fetch is
consulted); a failed fetch aborts the whole analysis with the single failure
report carrying the fetch error; a parse error likewise aborts with the
single failure report `Invalid XML: …`. The failure constructor carries only
`error` and `details` — there is no partial analysis in a failure. -/
theorem analyzeRSSFeed_failures :
    (∀ (fetch₁ fetch₂ : String → FetchResponse) (parse₁ parse₂ : String → ParsedDoc)
      (inputs : AnalyzeInputs), feedUrlFalsy inputs.feed_url = true →
        analyzeRSSFeed fetch₁ parse₁ inputs = .fail "feed_url is required" none
        ∧ analyzeRSSFeed fetch₁ parse₁ inputs = analyzeRSSFeed fetch₂ parse₂ inputs)
    ∧ (∀ (fetch : String → FetchResponse) (parse : String → ParsedDoc)
      (inputs : AnalyzeInputs) (e : String), feedUrlFalsy inputs.feed_url = false →
        fetchFeed fetch (inputs.feed_url.getD "") = .error e →
        analyzeRSSFeed fetch parse inputs = .fail e none)
    ∧ (∀ (fetch : String → FetchResponse) (parse : String → ParsedDoc)
      (inputs : AnalyzeInputs) (body pe : String), feedUrlFalsy inputs.feed_url = false →
        fetchFeed fetch (inputs.feed_url.getD "") = .ok body →
        (parse body).parseFail = some pe →
        analyzeRSSFeed fetch parse inputs = .fail ("Invalid XML: " ++ pe) none) := by
  refine ⟨?_, ?_, ?_⟩
  · intro fetch₁ fetch₂ parse₁ parse₂ inputs hfalsy
    constructor
    · simp [analyzeRSSFeed, hfalsy]
    · simp [analyzeRSSFeed, hfalsy]
  · intro fetch parse inputs e hfalsy hfetch
    simp [analyzeRSSFeed, hfalsy, hfetch]
  · intro fetch parse inputs body pe hfalsy hfetch hpe
    simp [analyzeRSSFeed, hfalsy, hfetch, analyzeFeedStructure, hpe]

/-- **C7, witness.** The three failure paths at concrete collaborators:
missing url, 404 fetch, invalid XML. -/
theorem analyzeRSSFeed_failures_witness :
    analyzeRSSFeed c7fetchFail c7parseBad c7inputsNoUrl = .fail "feed_url is required" none
    ∧ analyzeRSSFeed c7fetchFail c7parseBad c7inputsNoUrl
        = analyzeRSSFeed c7fetchOk c7parseBad c7inputsNoUrl
    ∧ analyzeRSSFeed c7fetchFail c7parseBad c7inputsUrl
        = .fail "Failed to fetch feed: 404" none
    ∧ analyzeRSSFeed c7fetchOk c7parseBad c7inputsUrl
        = .fail ("Invalid XML: " ++ "unexpected end of input") none := by
  have h1 := analyzeRSSFeed_failures.1 c7fetchFail c7fetchOk c7parseBad c7parseBad
    c7inputsNoUrl rfl
  have h2 := analyzeRSSFeed_failures.2.1 c7fetchFail c7parseBad c7inputsUrl
    "Failed to fetch feed: 404" rfl rfl
  have h3 := analyzeRSSFeed_failures.2.2 c7fetchOk c7parseBad c7inputsUrl
    "<bad" "unexpected end of input" rfl rfl rfl
  exact ⟨h1.1, h1.2, h2, h3⟩

/-! ### C10 — deep scan is the only source of patterns -/

theorem mem_itemWarnings_field (n : Nat) (w : Issue) (hw : w ∈ itemWarnings n) :
    w.field = "items" := by
  unfold itemWarnings at hw
  split at hw
  · simp at hw
  · split at hw
    · rw [List.mem_singleton.mp hw]
    · simp at hw

theorem mem_dateWarnings_field (rel : String → Option ℚ) (w : Issue)
    (hw : w ∈ dateWarnings rel) : w.field = "date" := by
  unfold dateWarnings at hw
  split at hw
  · simp at hw
  · rw [List.mem_singleton.mp hw]

theorem mem_encodingWarnings_field (e : String) (w : Issue)
    (hw : w ∈ encodingWarnings e) : w.field = "encoding" := by
  unfold encodingWarnings at hw
  split at hw
  · simp at hw
  · rw [List.mem_singleton.mp hw]

/-- **C10.** When `deep_scan` is false the analysis carries an empty
`fieldPatterns` record; consequently the validator never emits the
title-contains-HTML warning (the only warning whose field is `"title"`) and
the compatibility checker never emits an HTML-stripping recommendation (the
only recommendations of the `html` kind). -/
theorem no_deep_scan_no_patterns (d : ParsedDoc) (sampleSize : Nat) :
    ∀ a, analyzeFeedStructure d sampleSize false = .ok a →
      a.fieldPatterns = []
      ∧ (∀ w ∈ (validateDataQuality a).warnings, w.field ≠ "title")
      ∧ (∀ r ∈ (checkCompatibility a).recommendations,
          ∀ f m, r ≠ Recommendation.html f m) := by
  intro a ha
  cases hpe : d.parseFail with
  | some msg =>
    rw [analyzeFeedStructure, hpe] at ha
    exact absurd ha (by simp)
  | none =>
    rw [analyzeFeedStructure, hpe] at ha
    obtain rfl : _ = a := by
      injection ha
    have hpat :
        (if false = true then
          patternsOf
            (((docItems d).take (min sampleSize (docItems d).length)).map
              (fun it => extractItemFields it false))
         else ([] : List (String × FieldPattern))) = [] := by
      rfl
    refine ⟨hpat, ?_, ?_⟩
    · intro w hw
      simp only [validateDataQuality] at hw
      rw [hpat, titleHTMLWarnings, List.filterMap_nil, List.append_nil] at hw
      rcases List.mem_append.mp hw with hw' | hw''
      · rcases List.mem_append.mp hw' with h1 | h2
        · rw [mem_itemWarnings_field _ _ h1]
          decide
        · rw [mem_dateWarnings_field _ _ h2]
          decide
      · rw [mem_encodingWarnings_field _ _ hw'']
        decide
    · intro r hr f m
      simp only [checkCompatibility] at hr
      rw [hpat, htmlStripRecommendations, List.filterMap_nil, List.append_nil] at hr
      rcases List.mem_filterMap.mp hr with ⟨n, _, hn⟩
      by_cases hmem : n ∈ ["dc", "content", "media", "atom"]
      · rw [if_pos hmem] at hn
        exact absurd hn (by simp)
      · rw [if_neg hmem] at hn
        obtain rfl : _ = r := by injection hn
        simp

/-- **C10, witness.** A one-item document analyzed without deep scan: no
patterns, no title warning, no HTML-stripping recommendation. -/
theorem no_deep_scan_no_patterns_witness :
    c10analysis.fieldPatterns = []
    ∧ (validateDataQuality c10analysis).warnings.all
        (fun w => decide (w.field ≠ "title")) = true
    ∧ (checkCompatibility c10analysis).recommendations.all
        (fun r => match r with | .html _ _ => false | _ => true) = true := by
  have h := no_deep_scan_no_patterns c10doc 5 c10analysis (by rfl)
  refine ⟨h.1, ?_, ?_⟩
  · rw [List.all_eq_true]
    intro w hw
    simpa using h.2.1 w hw
  · rw [List.all_eq_true]
    intro r hr
    have hne := h.2.2 r hr
    cases r with
    | ns n m => rfl
    | html f m => exact absurd rfl (hne f m)

end RSSAnalyzer
